import Mathlib

/-!
Verification of the load-balanced selection subsystem of the kratos fork
(client-side selector, EWMA weighted node, HTTP resolver, registry types).

Shallow embedding conventions:
* Go int64 values are modelled as Lean Int; Go uint64 values as Nat, with
  an explicit mod 2^64 wherever Go performs uint64 arithmetic that may wrap.
* Go float64 arithmetic inside the EWMA updates is modelled exactly over the
  rationals; a Go conversion int64(x) / uint64(x) of a float truncates toward
  zero, which is modelled by truncQ below.
* math.Exp is transcendental, so the done-callback is parameterised by a
  function E modelling it; every real execution has E monotone into (0,1]
  on nonpositive arguments, which theorems take as a hypothesis when needed.
* Mutable per-node state (selector/node/ewma/node.go, struct Node) becomes
  the record NodeState, and the methods become state-passing functions.
-/

namespace Kratos

/-- Size of the uint64 value space. -/
def u64 : Nat := 2 ^ 64

/-- Go conversion uint64(x) of an int64 value x: wraps modulo 2^64. -/
def toUInt64 (x : Int) : Nat := (x % (2 ^ 64 : Int)).toNat

/-- Constant tau from node.go: int64(time.Millisecond * 600), in nanoseconds. -/
def tau : Int := 600 * 1000000

/-- Constant penalty from node.go: uint64(time.Second * 10), in nanoseconds. -/
def penalty : Nat := 10 * 1000000000

/-- Go conversion int64(x) of a float64 value x: truncation toward zero,
modelled on the exact rationals. -/
def truncQ (x : ℚ) : Int := if 0 ≤ x then ⌊x⌋ else ⌈x⌉

/-- Boolean abstraction of the DoneInfo error inspected by the EWMA done
callback (node.go lines 169-179): whether di.Err is nil, whether the node has
an errHandler and what it returns on di.Err, and the four error classifications
tested there (errors.Is(context.DeadlineExceeded, di.Err),
errors.Is(context.Canceled, di.Err), errors.IsServiceUnavailable(di.Err),
errors.IsGatewayTimeout(di.Err), errors.As(di.Err, &netErr)). -/
structure ErrInfo where
  isNil : Bool
  handlerSet : Bool
  handlerFlags : Bool
  isDeadlineExceeded : Bool
  isCanceled : Bool
  isServiceUnavailable : Bool
  isGatewayTimeout : Bool
  isNetError : Bool
deriving DecidableEq, Repr

/-- The success sample computed by the done callback (node.go lines 169-179):
1000 by default; forced to 0 by the errHandler or by any of the four
error-class tests, mirroring the two sequential if statements of the source. -/
def successSample (e : ErrInfo) : Nat :=
  if e.isNil then 1000
  else
    let s1 : Nat := if e.handlerSet && e.handlerFlags then 0 else 1000
    if e.isDeadlineExceeded || e.isCanceled || e.isServiceUnavailable ||
        e.isGatewayTimeout || e.isNetError then 0
    else s1

/-- State of an EWMA weighted node (struct Node in node.go). The inflights
container.List of pick start timestamps is modelled as a list of
(pick id, start timestamp) pairs: each Go DoneFunc closure removes exactly the
list element its own Pick pushed, which the id reproduces (ids are issued from
the monotone reqs counter, so live ids are distinct). -/
structure NodeState where
  lag : Int
  success : Nat
  inflight : Int
  inflights : List (Nat × Int)
  stamp : Int
  predictTs : Int
  predict : Int
  reqs : Nat
  lastPick : Int
deriving DecidableEq, Repr

/-- Builder.Build of node.go: lag 0, success 1000, inflight 1, empty inflights
list; the remaining fields start at their Go zero value. -/
def build : NodeState :=
  { lag := 0, success := 1000, inflight := 1, inflights := [],
    stamp := 0, predictTs := 0, predict := 0, reqs := 0, lastPick := 0 }

/-- Node.Pick of node.go (lines 124-132): store lastPick, increment inflight
and reqs, push the start timestamp onto the back of inflights. Returns the new
state together with the id handle held by the returned DoneFunc closure. -/
def NodeState.pick (now : Int) (s : NodeState) : NodeState × Nat :=
  ({ s with lastPick := now, inflight := s.inflight + 1, reqs := s.reqs + 1,
            inflights := s.inflights ++ [(s.reqs, now)] }, s.reqs)

/-- The DoneFunc closure returned by Node.Pick (node.go lines 133-187),
invoked at completion time now for the pick identified by id. E models
math.Exp. Removes the pick's inflights entry, decrements inflight, swaps
stamp, and performs the two EWMA updates with
w = E(-td/tau) (forced to 0 when the stored lag is 0). -/
def NodeState.done (E : ℚ → ℚ) (id : Nat) (now : Int) (e : ErrInfo)
    (s : NodeState) : NodeState :=
  let start : Int := (((s.inflights.find? (fun p => p.1 == id)).map Prod.snd).getD 0)
  let inflights := s.inflights.eraseP (fun p => p.1 == id)
  let inflight := s.inflight - 1
  let td0 := now - s.stamp
  let td := if td0 < 0 then 0 else td0
  let w0 := E (-(td : ℚ) / (tau : ℚ))
  let rawLag0 := now - start
  let rawLag := if rawLag0 < 0 then 0 else rawLag0
  let w := if s.lag = 0 then (0 : ℚ) else w0
  let lag := truncQ ((s.lag : ℚ) * w + (rawLag : ℚ) * (1 - w))
  let sample := successSample e
  let success := (truncQ ((s.success : ℚ) * w + (sample : ℚ) * (1 - w))).toNat
  { s with inflights := inflights, inflight := inflight, stamp := now,
           lag := lag, success := success }

/-- The prediction interval of Node.load (node.go lines 79-85): avgLag/5
clamped to the range from 5ms to 200ms (in nanoseconds). Go int64 division
truncates toward zero, hence Int.tdiv. -/
def predictInterval (avgLag : Int) : Int :=
  let p1 := if avgLag.tdiv 5 < 5 * 1000000 then 5 * 1000000 else avgLag.tdiv 5
  if p1 > 200 * 1000000 then 200 * 1000000 else p1

/-- Node.load of node.go (lines 75-121). The compare-and-swap on predictTs
always succeeds in this sequential model, so the stuck-request scan runs
exactly when now - predictTs exceeds the prediction interval. Returns the
computed load together with the possibly updated state (predict, predictTs). -/
def NodeState.load (now : Int) (s : NodeState) : Nat × NodeState :=
  let avgLag := s.lag
  let s1 :=
    if now - s.predictTs > predictInterval avgLag then
      let tc := s.inflights.foldl
        (fun (acc : Int × Nat) p =>
          if now - p.2 > avgLag then (acc.1 + (now - p.2), acc.2 + 1) else acc)
        (0, 0)
      let predict := if tc.2 > s.inflights.length / 2 + 1 then tc.1.tdiv (tc.2 : Int) else 0
      { s with predictTs := now, predict := predict }
    else s
  if avgLag = 0 then ((penalty * toUInt64 s1.inflight) % u64, s1)
  else
    let avgLag2 := if s1.predict > avgLag then s1.predict else avgLag
    ((toUInt64 avgLag2 * toUInt64 s1.inflight) % u64, s1)

/-- Node.health of node.go: the stored success value. -/
def NodeState.health (s : NodeState) : Nat := s.success

/-- The arithmetic of Node.Weight (node.go lines 191-194):
float64(health * uint64(time.Second)) / float64(load), with the uint64
product wrapping modulo 2^64 and the float64 division modelled exactly
over the rationals. -/
def ewmaWeight (success load : Nat) : ℚ :=
  (((success * 1000000000) % u64 : Nat) : ℚ) / (load : ℚ)

/-- Node.Weight of node.go evaluated at time now. -/
def NodeState.weight (now : Int) (s : NodeState) : ℚ :=
  ewmaWeight s.health (s.load now).1

/-- The smoothing factor used by the done callback at completion time now:
w = E(-td/tau) with td = max(0, now - stored stamp), forced to 0 when the
stored lag is 0 (node.go lines 145-162). -/
def smoothingFactor (E : ℚ → ℚ) (s : NodeState) (now : Int) : ℚ :=
  if s.lag = 0 then 0 else E (-((max 0 (now - s.stamp) : Int) : ℚ) / (tau : ℚ))

/-- One client-side event on an EWMA node: a Pick at a given time, or the
invocation of the DoneFunc belonging to the pick with the given id. -/
inductive Op where
  | pick (now : Int)
  | done (id : Nat) (now : Int) (e : ErrInfo)
deriving Repr

/-- Apply one event to the node state. -/
def Op.step (E : ℚ → ℚ) (s : NodeState) : Op → NodeState
  | Op.pick now => (s.pick now).1
  | Op.done id now e => s.done E id now e

/-- Run a sequence of events from a state. -/
def runOps (E : ℚ → ℚ) (s : NodeState) (ops : List Op) : NodeState :=
  ops.foldl (Op.step E) s

/-- An event is enabled in a state when, if it is a done event, it names a
pick that is currently in flight. -/
def validOp (s : NodeState) : Op → Bool
  | Op.pick _ => true
  | Op.done id _ _ => (s.inflights.map Prod.fst).contains id

/-- A sequence of events is valid from a state when every done event names a
pick that is currently in flight at that moment: this is exactly the
discipline of the Go API, where each DoneFunc closure is invoked at most once
and only after its own Pick. -/
def validFrom (E : ℚ → ℚ) (s : NodeState) : List Op → Bool
  | [] => true
  | op :: rest => validOp s op && validFrom E (Op.step E s op) rest

/-- Number of pick events in a sequence. -/
def countPicks : List Op → Nat
  | [] => 0
  | Op.pick _ :: rest => countPicks rest + 1
  | Op.done _ _ _ :: rest => countPicks rest

/-- Number of done events in a sequence. -/
def countDones : List Op → Nat
  | [] => 0
  | Op.pick _ :: rest => countDones rest
  | Op.done _ _ _ :: rest => countDones rest + 1

/-- A weighted node as seen by the Default selector: only its Raw() node is
relevant there (the telemetry lives behind the WeightedNode interface). -/
structure DWNode (ν : Type) where
  raw : ν
deriving DecidableEq, Repr

/-- Errors crossing Default.Select: ErrNoAvailable, or whatever error the
configured Balancer.Pick returned. -/
inductive SelectorError where
  | noAvailable
  | pickFailure (code : Nat)
deriving DecidableEq, Repr

/-- Default.Select of the selector package (default.go lines 23-69), with the
context and peer publication abstracted away: load the node snapshot (none
models an atomic.Value that was never stored), run the NodeFilters from the
options left to right when there are any, return ErrNoAvailable on an empty
candidate set, otherwise delegate to Balancer.Pick and return the chosen
node's Raw() with the DoneFunc (δ models the DoneFunc). -/
def defaultSelect {ν δ : Type} (nodes : Option (List (DWNode ν)))
    (filters : List (List (DWNode ν) → List (DWNode ν)))
    (pick : List (DWNode ν) → Except SelectorError (DWNode ν × δ)) :
    Except SelectorError (ν × δ) :=
  match nodes with
  | none => Except.error SelectorError.noAvailable
  | some ns =>
    let candidates :=
      if filters.length > 0 then filters.foldl (fun acc f => f acc) ns else ns
    if candidates.length = 0 then Except.error SelectorError.noAvailable
    else
      match pick candidates with
      | Except.error e => Except.error e
      | Except.ok (wn, d) => Except.ok (wn.raw, d)

/-- One linearized event on the Default selector's atomic.Value: an Apply of
a node list (default.go lines 72-80: build a fresh WeightedNode slice, then
one atomic Store), or the single atomic Load performed at the top of Select
(default.go line 29). -/
inductive SelEv (ν : Type) where
  | apply (ns : List ν)
  | select

/-- Run a linearized event sequence against the atomic.Value register,
recording the snapshot observed by each Select load. -/
def runSelects {ν α : Type} (bld : ν → α) :
    Option (List α) → List (SelEv ν) → List (Option (List α))
  | _, [] => []
  | _, SelEv.apply ns :: rest => runSelects bld (some (ns.map bld)) rest
  | reg, SelEv.select :: rest => reg :: runSelects bld reg rest

/-- resolver.update of transport/http/resolver.go (lines 135-149): keep the
instances whose endpoint list parses to a usable host. parse models
endpoint.ParseEndpoint on ins.Endpoints: none models a parse error, and
isEmptyE models the comparison of the parsed endpoint against the empty
string (the endpoint type ε abstracts Go strings). -/
def filteredInstances {ι ε : Type} (parse : ι → Option ε) (isEmptyE : ε → Bool)
    (services : List ι) : List ι :=
  services.filter fun ins =>
    match parse ins with
    | none => false
    | some ept => !(isEmptyE ept)

/-- The subset step of resolver.update (lines 150-153): the external
subset.Subset call (modelled by the parameter subsetF, which also closes over
the resolver's selecterKey) is applied exactly when subsetSize != 0. -/
def postSubset {ι : Type} (subsetF : List ι → Int → List ι) (subsetSize : Int)
    (l : List ι) : List ι :=
  if subsetSize ≠ 0 then subsetF l subsetSize else l

/-- Modelled from the spec: the subset step as the specification words it
(section 4.F: if subsetSize > 0, apply deterministic Subset), used to compare
the specified guard against the implemented one. -/
def postSubsetSpec {ι : Type} (subsetF : List ι → Int → List ι)
    (subsetSize : Int) (l : List ι) : List ι :=
  if subsetSize > 0 then subsetF l subsetSize else l

/-- The effective node set of resolver.update (lines 154-159): one selector
Node per surviving instance. newNode models selector.NewNode applied to the
re-parsed endpoint (defE models the Go zero-value string that the discarded
error branch of the second ParseEndpoint call would produce). -/
def effectiveNodes {ι ε ν : Type} (parse : ι → Option ε) (isEmptyE : ε → Bool)
    (subsetF : List ι → Int → List ι) (subsetSize : Int) (defE : ε)
    (newNode : ε → ι → ν) (services : List ι) : List ν :=
  (postSubset subsetF subsetSize (filteredInstances parse isEmptyE services)).map
    fun ins => newNode ((parse ins).getD defE) ins

/-- Modelled from the spec: effectiveNodes with the subset guard as specified
(subsetSize > 0) instead of as implemented (subsetSize != 0). -/
def effectiveNodesSpec {ι ε ν : Type} (parse : ι → Option ε) (isEmptyE : ε → Bool)
    (subsetF : List ι → Int → List ι) (subsetSize : Int) (defE : ε)
    (newNode : ε → ι → ν) (services : List ι) : List ν :=
  (postSubsetSpec subsetF subsetSize (filteredInstances parse isEmptyE services)).map
    fun ins => newNode ((parse ins).getD defE) ins

/-- resolver.update (lines 135-168): returns the Go return value together
with the argument of the single Rebalancer.Apply call, or none when Apply is
not called (the zero-endpoint guard of lines 161-164). -/
def resolverUpdate {ι ε ν : Type} (parse : ι → Option ε) (isEmptyE : ε → Bool)
    (subsetF : List ι → Int → List ι) (subsetSize : Int) (defE : ε)
    (newNode : ε → ι → ν) (services : List ι) : Bool × Option (List ν) :=
  let nodes := effectiveNodes parse isEmptyE subsetF subsetSize defE newNode services
  if nodes.length = 0 then (false, none) else (true, some nodes)

/-- A registry.ServiceInstance (registry.go), with the Go string fields
abstracted to a linearly ordered type σ: Go compares and sorts strings in
byte-lexicographic order, which is a linear order, and the Go zero-value
string is modelled by the Inhabited default. The Metadata map is modelled as
an association list with its lookup-or-zero-value access. -/
structure ServiceInstance (σ : Type) where
  id : σ
  name : σ
  version : σ
  metadata : List (σ × σ)
  endpoints : List σ
deriving DecidableEq, Repr

/-- ServiceInstance.Equal of registry.go (lines 75-112) for a non-nil
receiver; the argument is none when the Go argument is nil (the untyped-nil
and wrong-type branches of the source behave like the nil branch: no
sorting, result false). Returns the Go result together with the post-call
receiver and argument, because sort.Strings mutates both Endpoints slices in
place. -/
def ServiceInstance.equal {σ : Type} [LinearOrder σ] [Inhabited σ]
    (i : ServiceInstance σ) (o : Option (ServiceInstance σ)) :
    Bool × ServiceInstance σ × Option (ServiceInstance σ) :=
  match o with
  | none => (false, i, none)
  | some t =>
    if i.endpoints.length ≠ t.endpoints.length then (false, i, some t)
    else
      let i2 := { i with endpoints := List.insertionSort (· ≤ ·) i.endpoints }
      let t2 := { t with endpoints := List.insertionSort (· ≤ ·) t.endpoints }
      if i2.endpoints ≠ t2.endpoints then (false, i2, some t2)
      else if i.metadata.length ≠ t.metadata.length then (false, i2, some t2)
      else if ¬ (i.metadata.all fun kv =>
          kv.2 = (((t.metadata.find? fun kv2 => kv2.1 = kv.1).map Prod.snd).getD
            default)) then (false, i2, some t2)
      else (decide (i.id = t.id) && decide (i.name = t.name) &&
        decide (i.version = t.version), i2, some t2)

/-- Modelled from the spec (claims C2 and C3 wording): an EWMA update that
rounds old*w + sample*(1-w) to the nearest integer, to compare against the
truncating conversion the source performs. -/
def lagSpecRound (oldLag raw : Int) (w : ℚ) : Int :=
  round ((oldLag : ℚ) * w + (raw : ℚ) * (1 - w))

/-- Modelled from the spec (claim C3 wording): the success EWMA update with
rounding to the nearest integer. -/
def successSpecRound (oldSuccess sample : Nat) (w : ℚ) : Int :=
  round ((oldSuccess : ℚ) * w + (sample : ℚ) * (1 - w))

/-- An exp model that is constantly 1 (the value of exp at 0); used by
witnesses. -/
def Eone : ℚ → ℚ := fun _ => 1

/-- An exp model that is constantly 1/2; used by counterexamples. -/
def Ehalf : ℚ → ℚ := fun _ => 1 / 2

/-- A nil completion error. -/
def eNone : ErrInfo :=
  { isNil := true, handlerSet := false, handlerFlags := false,
    isDeadlineExceeded := false, isCanceled := false,
    isServiceUnavailable := false, isGatewayTimeout := false,
    isNetError := false }

/-- A transport/network completion error (errors.As(di.Err, &netErr) true). -/
def eNet : ErrInfo :=
  { isNil := false, handlerSet := false, handlerFlags := false,
    isDeadlineExceeded := false, isCanceled := false,
    isServiceUnavailable := false, isGatewayTimeout := false,
    isNetError := true }

/-- Node state with one in-flight pick (id 0 started at time 0) and stored
lag 1; used by the C2 counterexample and witness. -/
def stateC2 : NodeState :=
  { lag := 1, success := 1000, inflight := 2, inflights := [(0, 0)],
    stamp := 0, predictTs := 0, predict := 0, reqs := 1, lastPick := 0 }

/-- Node state with stored success 999 and one in-flight pick; used by the
C3 counterexample. -/
def stateC3 : NodeState :=
  { lag := 1, success := 999, inflight := 2, inflights := [(0, 0)],
    stamp := 0, predictTs := 0, predict := 0, reqs := 1, lastPick := 0 }

/-- Warm node state (lag 1, predict 0, one inflight); used by the C1
witness. -/
def sC1 : NodeState :=
  { lag := 1, success := 1000, inflight := 1, inflights := [],
    stamp := 0, predictTs := 0, predict := 0, reqs := 0, lastPick := 0 }

/-- Event sequence used by the C6 witness: three picks and one done. -/
def opsC6 : List Op :=
  [Op.pick 5, Op.pick 7, Op.done 0 9 eNone, Op.pick 11]

/-- A balancer pick policy used by witnesses: choose the first candidate. -/
def pickFirst : List (DWNode Nat) → Except SelectorError (DWNode Nat × Unit)
  | [] => Except.error SelectorError.noAvailable
  | x :: _ => Except.ok (x, ())

/-- Event sequence used by the C5 witness: one Apply then one Select. -/
def evsC5 : List (SelEv Nat) := [SelEv.apply [3], SelEv.select]

/-- Endpoint parser used by the C9 theorems: every instance parses to the
endpoint 1. -/
def parseC9 : Unit → Option Nat := fun _ => some 1

/-- Endpoint emptiness test used by the C9 theorems: 0 models the empty
string. -/
def isEmptyC9 : Nat → Bool := fun e => e == 0

/-- A subset function used by the C9 counterexample: it discards every
instance, making the effect of applying it observable. -/
def subsetC9 : List Unit → Int → List Unit := fun _ _ => []

/-- Node constructor used by the C9 theorems. -/
def newNodeC9 : Nat → Unit → Nat := fun e _ => e

/-- Service instance with endpoints out of order; used by the C10 theorems. -/
def instC10 : ServiceInstance Nat :=
  { id := 7, name := 8, version := 9, metadata := [], endpoints := [1, 0] }

/-- Service instance with the same endpoints already ordered; used by the
C10 theorems. -/
def instC10b : ServiceInstance Nat :=
  { id := 7, name := 8, version := 9, metadata := [], endpoints := [0, 1] }

/-- Structural invariant of a node state: inflight is one more than the
length of the inflights list, the pick ids in flight are distinct, and all
of them were issued below the reqs counter. -/
def NodeInv (s : NodeState) : Prop :=
  s.inflight = 1 + (s.inflights.length : Int) ∧
  (s.inflights.map Prod.fst).Nodup ∧
  ∀ p ∈ s.inflights, p.1 < s.reqs

theorem nodeInv_build : NodeInv build := by
  refine ⟨rfl, List.nodup_nil, ?_⟩
  intro p hp
  simp [build] at hp

theorem nodeInv_pick (s : NodeState) (now : Int) (h : NodeInv s) :
    NodeInv (s.pick now).1 := by
  obtain ⟨h1, h2, h3⟩ := h
  refine ⟨?_, ?_, ?_⟩
  · simp only [NodeState.pick, List.length_append, List.length_cons,
      List.length_nil]
    rw [h1]
    push_cast
    ring
  · have hmap : List.map Prod.fst ((s.pick now).1.inflights) =
        List.map Prod.fst s.inflights ++ [s.reqs] := by
      simp [NodeState.pick]
    rw [hmap]
    refine List.Nodup.append h2 (List.nodup_singleton _) ?_
    intro a ha hb
    rw [List.mem_singleton] at hb
    subst hb
    rcases List.mem_map.1 ha with ⟨p, hpmem, hfst⟩
    exact absurd hfst (Nat.ne_of_lt (h3 p hpmem))
  · intro p hp
    have hreqs : (s.pick now).1.reqs = s.reqs + 1 := rfl
    rw [hreqs]
    simp only [NodeState.pick, List.mem_append, List.mem_singleton] at hp
    rcases hp with hp | hp
    · exact Nat.lt_succ_of_lt (h3 p hp)
    · rw [hp]
      exact Nat.lt_succ_self _

theorem nodeInv_done (s : NodeState) (E : ℚ → ℚ) (id : Nat) (now : Int)
    (e : ErrInfo) (h : NodeInv s)
    (hid : (s.inflights.map Prod.fst).contains id = true) :
    NodeInv (s.done E id now e) ∧
    (s.done E id now e).inflight = s.inflight - 1 := by
  obtain ⟨h1, h2, h3⟩ := h
  obtain ⟨q, hq, hbeq⟩ := List.contains_iff_exists_mem_beq.1 hid
  obtain ⟨p, hpmem, hpfst⟩ := List.mem_map.1 hq
  have hp : (fun p : Nat × Int => p.1 == id) p = true := by
    simp [hpfst, eq_of_beq hbeq]
  have hlen : (s.inflights.eraseP (fun p => p.1 == id)).length =
      s.inflights.length - 1 :=
    List.length_eraseP_of_mem hpmem hp
  have hlenpos : 1 ≤ s.inflights.length := List.length_pos_of_mem hpmem
  have hsub : (s.inflights.eraseP (fun p => p.1 == id)).Sublist s.inflights :=
    List.eraseP_sublist _
  refine ⟨⟨?_, ?_, ?_⟩, rfl⟩
  · simp only [NodeState.done]
    rw [hlen, h1]
    omega
  · exact List.Nodup.sublist (List.Sublist.map Prod.fst hsub) h2
  · intro q hqmem
    exact h3 q (hsub.subset hqmem)

theorem runOps_inflight (E : ℚ → ℚ) (ops : List Op) :
    ∀ s : NodeState, NodeInv s → validFrom E s ops = true →
      (runOps E s ops).inflight =
        s.inflight + (countPicks ops : Int) - (countDones ops : Int) ∧
      NodeInv (runOps E s ops) := by
  induction ops with
  | nil =>
    intro s hs _
    simpa [runOps, countPicks, countDones] using hs
  | cons op rest ih =>
    intro s hs hv
    rw [show validFrom E s (op :: rest) =
        (validOp s op && validFrom E (Op.step E s op) rest) from rfl,
      Bool.and_eq_true] at hv
    cases op with
    | pick now =>
      have hinv := nodeInv_pick s now hs
      have hstep := ih _ hinv hv.2
      refine ⟨?_, hstep.2⟩
      simp only [runOps, List.foldl_cons, Op.step] at hstep ⊢
      rw [hstep.1]
      show (s.pick now).1.inflight + _ - _ =
        s.inflight + ((countPicks rest + 1 : Nat) : Int) - (countDones rest : Int)
      have hinc : (s.pick now).1.inflight = s.inflight + 1 := rfl
      rw [hinc]
      push_cast
      ring
    | done id now e =>
      have hdone := nodeInv_done s E id now e hs hv.1
      have hstep := ih _ hdone.1 hv.2
      refine ⟨?_, hstep.2⟩
      simp only [runOps, List.foldl_cons, Op.step] at hstep ⊢
      rw [hstep.1]
      show _ + (countPicks rest : Int) - _ =
        s.inflight + (countPicks rest : Int) - ((countDones rest + 1 : Nat) : Int)
      rw [hdone.2]
      push_cast
      ring

theorem ifNegZero (x : Int) : (if x < 0 then 0 else x) = max 0 x := by
  rcases lt_or_le x 0 with h | h
  · rw [if_pos h, max_eq_left h.le]
  · rw [if_neg (not_lt.2 h), max_eq_right h]

theorem ifGT_eq_max (a b : Int) : (if b > a then b else a) = max a b := by
  rcases le_or_lt b a with h | h
  · rw [if_neg (not_lt.2 h), max_eq_left h]
  · rw [if_pos h, max_eq_right h.le]

theorem toUInt64_eq_toNat (x : Int) (h0 : 0 ≤ x) (h1 : x < 2 ^ 64) :
    toUInt64 x = x.toNat := by
  unfold toUInt64
  rw [Int.emod_eq_of_lt h0 h1]

theorem smoothingFactor_mem (E : ℚ → ℚ) (s : NodeState) (now : Int)
    (hE : ∀ x : ℚ, x ≤ 0 → 0 ≤ E x ∧ E x ≤ 1) :
    0 ≤ smoothingFactor E s now ∧ smoothingFactor E s now ≤ 1 := by
  unfold smoothingFactor
  split
  · norm_num
  · apply hE
    apply div_nonpos_of_nonpos_of_nonneg
    · simp only [Left.neg_nonpos_iff]
      exact_mod_cast le_max_left 0 (now - s.stamp)
    · norm_num [tau]

theorem done_success_eq (E : ℚ → ℚ) (id : Nat) (now : Int) (e : ErrInfo)
    (s : NodeState) :
    (s.done E id now e).success =
      (truncQ ((s.success : ℚ) * smoothingFactor E s now +
        (successSample e : ℚ) * (1 - smoothingFactor E s now))).toNat := by
  simp only [NodeState.done, smoothingFactor]
  rw [ifNegZero]

theorem done_lag_eq (E : ℚ → ℚ) (id : Nat) (now : Int) (e : ErrInfo)
    (s : NodeState) (ts : Int)
    (hfind : s.inflights.find? (fun p => p.1 == id) = some (id, ts)) :
    (s.done E id now e).lag =
      truncQ ((s.lag : ℚ) * smoothingFactor E s now +
        ((max 0 (now - ts) : Int) : ℚ) * (1 - smoothingFactor E s now)) := by
  simp only [NodeState.done, smoothingFactor, hfind, Option.map_some',
    Option.getD_some]
  rw [ifNegZero, ifNegZero]

theorem successSample_cases (e : ErrInfo) :
    successSample e = 0 ∨ successSample e = 1000 := by
  simp only [successSample]
  split
  · exact Or.inr rfl
  · split
    · exact Or.inl rfl
    · split
      · exact Or.inl rfl
      · exact Or.inr rfl

theorem successSample_eq_zero_iff (e : ErrInfo) :
    successSample e = 0 ↔
      (e.isNil = false ∧
        (e.handlerSet && e.handlerFlags || e.isDeadlineExceeded ||
          e.isCanceled || e.isServiceUnavailable || e.isGatewayTimeout ||
          e.isNetError) = true) := by
  rcases e with ⟨n, hs, hf, d, c, u, g, t⟩
  cases n <;> cases hs <;> cases hf <;> cases d <;> cases c <;> cases u <;>
    cases g <;> cases t <;> decide

theorem successSample_le (e : ErrInfo) : successSample e ≤ 1000 := by
  rcases successSample_cases e with h | h <;> simp [h]

theorem done_success_le (E : ℚ → ℚ) (id : Nat) (now : Int) (e : ErrInfo)
    (s : NodeState) (hs : s.success ≤ 1000)
    (hE : ∀ x : ℚ, x ≤ 0 → 0 ≤ E x ∧ E x ≤ 1) :
    (s.done E id now e).success ≤ 1000 := by
  rw [done_success_eq]
  obtain ⟨hw0, hw1⟩ := smoothingFactor_mem E s now hE
  set w := smoothingFactor E s now with hwdef
  have hval : (s.success : ℚ) * w + (successSample e : ℚ) * (1 - w) ≤ 1000 := by
    have h1 : (s.success : ℚ) * w ≤ 1000 * w := by
      apply mul_le_mul_of_nonneg_right _ hw0
      exact_mod_cast hs
    have h2 : (successSample e : ℚ) * (1 - w) ≤ 1000 * (1 - w) := by
      apply mul_le_mul_of_nonneg_right _ (by linarith)
      exact_mod_cast successSample_le e
    linarith
  have hval0 : 0 ≤ (s.success : ℚ) * w + (successSample e : ℚ) * (1 - w) := by
    have h1 : (0 : ℚ) ≤ (s.success : ℚ) * w :=
      mul_nonneg (by positivity) hw0
    have h2 : (0 : ℚ) ≤ (successSample e : ℚ) * (1 - w) :=
      mul_nonneg (by positivity) (by linarith)
    linarith
  rw [truncQ, if_pos hval0]
  have hfl : ⌊(s.success : ℚ) * w + (successSample e : ℚ) * (1 - w)⌋ ≤ 1000 := by
    have := Int.floor_le_floor (α := ℚ) hval
    simpa using this
  exact Int.toNat_le.2 hfl

theorem ewmaWeight_mono_success (su1 su2 ld : Nat) (h12 : su1 < su2)
    (h2 : su2 ≤ 1000) (hld : 0 < ld) :
    ewmaWeight su1 ld < ewmaWeight su2 ld := by
  unfold ewmaWeight
  have hb1 : su1 * 1000000000 < u64 := by
    have : su1 ≤ 1000 := le_of_lt (lt_of_lt_of_le h12 h2)
    calc su1 * 1000000000 ≤ 1000 * 1000000000 :=
          Nat.mul_le_mul_right _ this
      _ < u64 := by norm_num [u64]
  have hb2 : su2 * 1000000000 < u64 := by
    calc su2 * 1000000000 ≤ 1000 * 1000000000 := Nat.mul_le_mul_right _ h2
      _ < u64 := by norm_num [u64]
  rw [Nat.mod_eq_of_lt hb1, Nat.mod_eq_of_lt hb2]
  rw [div_lt_div_iff_of_pos_right (by exact_mod_cast hld)]
  exact_mod_cast (mul_lt_mul_right (by norm_num : (0:ℕ) < 1000000000)).2 h12

theorem ewmaWeight_anti_load (su ld1 ld2 : Nat) (hsu : 0 < su)
    (hsub : su ≤ 1000) (h1 : 0 < ld1) (h12 : ld1 < ld2) :
    ewmaWeight su ld2 < ewmaWeight su ld1 := by
  unfold ewmaWeight
  have hb : su * 1000000000 < u64 := by
    calc su * 1000000000 ≤ 1000 * 1000000000 := Nat.mul_le_mul_right _ hsub
      _ < u64 := by norm_num [u64]
  rw [Nat.mod_eq_of_lt hb]
  apply div_lt_div_of_pos_left
  · have : 0 < su * 1000000000 := Nat.mul_pos hsu (by norm_num)
    exact_mod_cast this
  · exact_mod_cast h1
  · exact_mod_cast h12

/-- Claim C1: for the EWMA weighted node, when the stored lag is 0 (cold
node) load() equals the penalty constant (10 s in nanoseconds) times the
current inflight count, otherwise load() equals max(avgLag, predict) times
inflight; and Weight() equals success times 1e9 divided by load, so at a
fixed positive load a higher success gives a higher weight and at a fixed
positive success a higher load gives a lower weight. The bound hypotheses
keep the uint64 products of the source away from wrapping, and hscan keeps
the prediction scan quiescent so the stored predict value is the one read. -/
theorem ewma_load_weight (now : Int) (s : NodeState)
    (hscan : ¬ now - s.predictTs > predictInterval s.lag)
    (hinf0 : 0 ≤ s.inflight) (hinf : s.inflight ≤ 2 ^ 20)
    (hlag0 : 0 ≤ s.lag) (hlag : s.lag ≤ 2 ^ 40)
    (_hpred0 : 0 ≤ s.predict) (hpred : s.predict ≤ 2 ^ 40) :
    ((s.load now).1 =
      if s.lag = 0 then penalty * s.inflight.toNat
      else (max s.lag s.predict).toNat * s.inflight.toNat) ∧
    s.weight now = ewmaWeight s.success (s.load now).1 ∧
    (∀ su1 su2 ld : Nat, su1 < su2 → su2 ≤ 1000 → 0 < ld →
      ewmaWeight su1 ld < ewmaWeight su2 ld) ∧
    (∀ su ld1 ld2 : Nat, 0 < su → su ≤ 1000 → 0 < ld1 → ld1 < ld2 →
      ewmaWeight su ld2 < ewmaWeight su ld1) := by
  refine ⟨?_, rfl,
    fun su1 su2 ld a b c => ewmaWeight_mono_success su1 su2 ld a b c,
    fun su ld1 ld2 a b c d => ewmaWeight_anti_load su ld1 ld2 a b c d⟩
  have hinfN : s.inflight.toNat ≤ 2 ^ 20 := by omega
  have hinfu : s.inflight < 2 ^ 64 := lt_of_le_of_lt hinf (by norm_num)
  simp only [NodeState.load]
  rw [if_neg hscan]
  split
  · rw [toUInt64_eq_toNat s.inflight hinf0 hinfu]
    apply Nat.mod_eq_of_lt
    calc penalty * s.inflight.toNat ≤ penalty * 2 ^ 20 :=
          Nat.mul_le_mul_left _ hinfN
      _ < u64 := by norm_num [penalty, u64]
  · rw [ifGT_eq_max]
    have hmax0 : 0 ≤ max s.lag s.predict := le_trans hlag0 (le_max_left _ _)
    have hmaxb : max s.lag s.predict ≤ 2 ^ 40 := max_le hlag hpred
    rw [toUInt64_eq_toNat _ hmax0 (lt_of_le_of_lt hmaxb (by norm_num)),
      toUInt64_eq_toNat s.inflight hinf0 hinfu]
    apply Nat.mod_eq_of_lt
    have h1 : (max s.lag s.predict).toNat ≤ 2 ^ 40 := by omega
    calc (max s.lag s.predict).toNat * s.inflight.toNat ≤ 2 ^ 40 * 2 ^ 20 :=
          Nat.mul_le_mul h1 hinfN
      _ < u64 := by norm_num [u64]

theorem ewma_load_weight_witness :
    (¬ (0 : Int) - sC1.predictTs > predictInterval sC1.lag) ∧
    ((sC1.load 0).1 =
      if sC1.lag = 0 then penalty * sC1.inflight.toNat
      else (max sC1.lag sC1.predict).toNat * sC1.inflight.toNat) :=
  ⟨by decide, (ewma_load_weight 0 sC1 (by decide) (by decide) (by decide)
    (by decide) (by decide) (by decide) (by decide)).1⟩

/-- Claim C2, amended: in the done callback at completion time now, with
td = max(0, now - previous stamp), w = E(-td/tau) with tau = 600 ms, w forced
to 0 when the stored lag is 0, and raw lag = max(0, now - pick start), the
new stored lag is the TRUNCATION toward zero (not the rounding) of
old lag * w + raw lag * (1 - w); the stamp is swapped to now. -/
theorem ewma_lag_update (E : ℚ → ℚ) (id : Nat) (now : Int) (e : ErrInfo)
    (s : NodeState) (ts : Int)
    (hfind : s.inflights.find? (fun p => p.1 == id) = some (id, ts)) :
    (s.done E id now e).stamp = now ∧
    (s.done E id now e).lag =
      truncQ ((s.lag : ℚ) * smoothingFactor E s now +
        ((max 0 (now - ts) : Int) : ℚ) * (1 - smoothingFactor E s now)) :=
  ⟨rfl, done_lag_eq E id now e s ts hfind⟩

theorem ewma_lag_update_witness :
    stateC2.inflights.find? (fun p => p.1 == 0) = some (0, 0) ∧
    (stateC2.done Ehalf 0 2 eNone).stamp = 2 :=
  ⟨by decide, (ewma_lag_update Ehalf 0 2 eNone stateC2 0 (by decide)).1⟩

/-- Claim C2 counterexample: at the concrete completion below (old lag 1,
raw lag 2, smoothing factor 1/2) the code stores lag 1, the truncation of
3/2, while the claim's rounded update round(3/2) yields 2. -/
theorem ewma_lag_round_cex :
    (stateC2.done Ehalf 0 2 eNone).lag ≠
      lagSpecRound stateC2.lag (max 0 (2 - 0)) (smoothingFactor Ehalf stateC2 2) ∧
    (stateC2.done Ehalf 0 2 eNone).lag = 1 ∧
    lagSpecRound stateC2.lag (max 0 (2 - 0))
      (smoothingFactor Ehalf stateC2 2) = 2 := by
  have hw : smoothingFactor Ehalf stateC2 2 = 1 / 2 := by
    norm_num [smoothingFactor, Ehalf, stateC2]
  have hl : (stateC2.done Ehalf 0 2 eNone).lag = 1 := by
    rw [done_lag_eq Ehalf 0 2 eNone stateC2 0 (by decide), hw]
    norm_num [truncQ, stateC2]
  have hr : lagSpecRound stateC2.lag (max 0 (2 - 0))
      (smoothingFactor Ehalf stateC2 2) = 2 := by
    rw [hw]
    norm_num [lagSpecRound, stateC2, round_eq]
  exact ⟨by rw [hl, hr]; decide, hl, hr⟩

/-- Claim C3, amended: the done callback's success sample is 1000 by default
and 0 exactly when the error is non-nil and flagged by the errHandler or by
one of the deadline/cancel, service-unavailable, gateway-timeout or network
classifications; the stored success becomes the TRUNCATION toward zero (not
the rounding) of old success * w + sample * (1 - w), with the same smoothing
factor w as the lag update. -/
theorem ewma_success_update (E : ℚ → ℚ) (id : Nat) (now : Int) (e : ErrInfo)
    (s : NodeState) :
    (s.done E id now e).success =
      (truncQ ((s.success : ℚ) * smoothingFactor E s now +
        (successSample e : ℚ) * (1 - smoothingFactor E s now))).toNat ∧
    (successSample e = 0 ↔
      (e.isNil = false ∧
        (e.handlerSet && e.handlerFlags || e.isDeadlineExceeded ||
          e.isCanceled || e.isServiceUnavailable || e.isGatewayTimeout ||
          e.isNetError) = true)) ∧
    (successSample e = 0 ∨ successSample e = 1000) :=
  ⟨done_success_eq E id now e s, successSample_eq_zero_iff e,
    successSample_cases e⟩

/-- Claim C3 counterexample: at the concrete completion below (old success
999, sample 0 from a network error, smoothing factor 1/2) the code stores
success 499, the truncation of 999/2, while the claim's rounded update
round(999/2) yields 500. -/
theorem ewma_success_round_cex :
    ((stateC3.done Ehalf 0 2 eNet).success : Int) ≠
      successSpecRound stateC3.success (successSample eNet)
        (smoothingFactor Ehalf stateC3 2) ∧
    (stateC3.done Ehalf 0 2 eNet).success = 499 ∧
    successSpecRound stateC3.success (successSample eNet)
      (smoothingFactor Ehalf stateC3 2) = 500 := by
  have hw : smoothingFactor Ehalf stateC3 2 = 1 / 2 := by
    norm_num [smoothingFactor, Ehalf, stateC3]
  have hsamp : successSample eNet = 0 := by decide
  have hs : (stateC3.done Ehalf 0 2 eNet).success = 499 := by
    rw [done_success_eq, hw, hsamp]
    norm_num [truncQ, stateC3]
    decide
  have hr : successSpecRound stateC3.success (successSample eNet)
      (smoothingFactor Ehalf stateC3 2) = 500 := by
    rw [hw, hsamp]
    norm_num [successSpecRound, stateC3, round_eq]
  exact ⟨by rw [hs, hr]; decide, hs, hr⟩

/-- Claim C6: from a freshly built EWMA node, for every valid sequence of
picks and done invocations (each done invoked once for a pick still in
flight), the inflight counter equals 1 + picks - dones and the inflights
list length equals inflight - 1. -/
theorem ewma_inflight_conservation (E : ℚ → ℚ) (ops : List Op)
    (hv : validFrom E build ops = true) :
    (runOps E build ops).inflight =
      1 + (countPicks ops : Int) - (countDones ops : Int) ∧
    ((runOps E build ops).inflights.length : Int) =
      (runOps E build ops).inflight - 1 := by
  have h := runOps_inflight E ops build nodeInv_build hv
  have hinv := h.2.1
  refine ⟨?_, by omega⟩
  rw [h.1]
  norm_num [build]

theorem ewma_inflight_conservation_witness :
    validFrom Eone build opsC6 = true ∧
    (runOps Eone build opsC6).inflight =
      1 + (countPicks opsC6 : Int) - (countDones opsC6 : Int) ∧
    ((runOps Eone build opsC6).inflights.length : Int) =
      (runOps Eone build opsC6).inflight - 1 :=
  ⟨by decide, ewma_inflight_conservation Eone opsC6 (by decide)⟩

/-- Claim C7: the EWMA success value starts at 1000 and every done
invocation keeps it inside the interval from 0 to 1000, for every error
input and every smoothing-factor model E mapping nonpositive arguments into
the unit interval (as math.Exp does). -/
theorem ewma_success_clamped (E : ℚ → ℚ) (id : Nat) (now : Int) (e : ErrInfo)
    (s : NodeState) (hs : s.success ≤ 1000)
    (hE : ∀ x : ℚ, x ≤ 0 → 0 ≤ E x ∧ E x ≤ 1) :
    build.success = 1000 ∧ 0 ≤ (s.done E id now e).success ∧
    (s.done E id now e).success ≤ 1000 :=
  ⟨rfl, Nat.zero_le _, done_success_le E id now e s hs hE⟩

theorem ewma_success_clamped_witness :
    stateC3.success ≤ 1000 ∧ (stateC3.done Eone 0 2 eNone).success ≤ 1000 := by
  refine ⟨by decide, (ewma_success_clamped Eone 0 2 eNone stateC3 (by decide)
    ?_).2.2⟩
  intro x hx
  norm_num [Eone]

theorem foldl_filters_nil {ν : Type}
    (filters : List (List (DWNode ν) → List (DWNode ν)))
    (hf : ∀ f ∈ filters, f [] = []) :
    filters.foldl (fun acc f => f acc) [] = [] := by
  induction filters with
  | nil => rfl
  | cons f rest ih =>
    rw [List.foldl_cons, hf f (List.mem_cons_self f rest)]
    exact ih fun g hg => hf g (List.mem_cons_of_mem f hg)

theorem candidates_eq_foldl {ν : Type} (ns : List (DWNode ν))
    (filters : List (List (DWNode ν) → List (DWNode ν))) :
    (if filters.length > 0 then filters.foldl (fun acc f => f acc) ns else ns) =
      filters.foldl (fun acc f => f acc) ns := by
  rcases filters with _ | ⟨f, rest⟩
  · rfl
  · rw [if_pos]
    simp

/-- Claim C4: Default.Select returns ErrNoAvailable (and nothing else) when
no node set has been stored, when the stored set is empty (given
spec-conformant NodeFilters, which never create nodes from an empty slice),
and when the post-filter candidate set is empty; for any non-empty
post-filter candidate set it delegates to Balancer.Pick over those
candidates and propagates the outcome. -/
theorem default_select_spec {ν δ : Type}
    (filters : List (List (DWNode ν) → List (DWNode ν)))
    (pick : List (DWNode ν) → Except SelectorError (DWNode ν × δ))
    (hf : ∀ f ∈ filters, f [] = []) :
    (defaultSelect none filters pick =
      Except.error SelectorError.noAvailable) ∧
    (defaultSelect (some []) filters pick =
      Except.error SelectorError.noAvailable) ∧
    (∀ ns, filters.foldl (fun acc f => f acc) ns = [] →
      defaultSelect (some ns) filters pick =
        Except.error SelectorError.noAvailable) ∧
    (∀ ns, filters.foldl (fun acc f => f acc) ns ≠ [] →
      defaultSelect (some ns) filters pick =
        match pick (filters.foldl (fun acc f => f acc) ns) with
        | Except.error err => Except.error err
        | Except.ok (wn, d) => Except.ok (wn.raw, d)) := by
  have hempty : ∀ ns, filters.foldl (fun acc f => f acc) ns = [] →
      defaultSelect (some ns) filters pick =
        Except.error SelectorError.noAvailable := by
    intro ns hns
    simp only [defaultSelect]
    rw [candidates_eq_foldl, hns]
    rfl
  refine ⟨rfl, hempty [] (foldl_filters_nil filters hf), hempty, ?_⟩
  intro ns hns
  simp only [defaultSelect, candidates_eq_foldl]
  rw [if_neg]
  simpa using hns

theorem default_select_spec_witness :
    (∀ f ∈ ([] : List (List (DWNode Nat) → List (DWNode Nat))), f [] = []) ∧
    defaultSelect none [] pickFirst =
      Except.error SelectorError.noAvailable :=
  by
  have hf : ∀ f ∈ ([] : List (List (DWNode Nat) → List (DWNode Nat))),
      f [] = [] := by
    intro f hmem
    cases hmem
  exact ⟨hf, (default_select_spec [] pickFirst hf).1⟩

theorem runSelects_mem {ν α : Type} (bld : ν → α) (evs : List (SelEv ν)) :
    ∀ reg obs : Option (List α), obs ∈ runSelects bld reg evs →
      obs = reg ∨ ∃ ns, SelEv.apply ns ∈ evs ∧ obs = some (ns.map bld) := by
  induction evs with
  | nil =>
    intro reg obs h
    cases h
  | cons ev rest ih =>
    intro reg obs h
    cases ev with
    | apply ns =>
      simp only [runSelects] at h
      rcases ih _ _ h with h1 | ⟨ns2, hmem, hobs⟩
      · exact Or.inr ⟨ns, List.mem_cons_self _ _, h1⟩
      · exact Or.inr ⟨ns2, List.mem_cons_of_mem _ hmem, hobs⟩
    | select =>
      simp only [runSelects] at h
      rcases List.mem_cons.1 h with h1 | h1
      · exact Or.inl h1
      · rcases ih _ _ h1 with h2 | ⟨ns2, hmem, hobs⟩
        · exact Or.inl h2
        · exact Or.inr ⟨ns2, List.mem_cons_of_mem _ hmem, hobs⟩

/-- Claim C5: in the linearized model of the Default selector's atomic.Value
(Apply = build a fresh slice, then one atomic store; Select = one atomic
load), every snapshot observed by a Select is either none (no Apply stored
yet) or, in full, the built image of exactly one applied node list: no
observation mixes elements of two applied sets. -/
theorem select_atomic_snapshot {ν α : Type} (bld : ν → α)
    (evs : List (SelEv ν)) (obs : Option (List α))
    (h : obs ∈ runSelects bld none evs) :
    obs = none ∨ ∃ ns, SelEv.apply ns ∈ evs ∧ obs = some (ns.map bld) :=
  runSelects_mem bld evs none obs h

theorem select_atomic_snapshot_witness :
    some [4] ∈ runSelects Nat.succ none evsC5 ∧
    (some [4] = none ∨
      ∃ ns, SelEv.apply ns ∈ evsC5 ∧ some [4] = some (ns.map Nat.succ)) :=
  ⟨by decide, select_atomic_snapshot Nat.succ evsC5 (some [4]) (by decide)⟩

/-- Claim C8: resolver.update never calls Rebalancer.Apply and returns false
when the effective node set is empty (in particular when the snapshot is
empty, or when every instance was discarded by endpoint filtering), and for
a non-empty effective node set calls Apply exactly once with that set and
returns true. hsub states that the external subset.Subset returns an empty
list on an empty input, as the aegis implementation does. -/
theorem resolver_update_guard {ι ε ν : Type} (parse : ι → Option ε)
    (isEmptyE : ε → Bool) (subsetF : List ι → Int → List ι) (subsetSize : Int)
    (defE : ε) (newNode : ε → ι → ν)
    (hsub : ∀ sz, subsetF [] sz = []) :
    (∀ services,
      effectiveNodes parse isEmptyE subsetF subsetSize defE newNode services = [] →
      resolverUpdate parse isEmptyE subsetF subsetSize defE newNode services =
        (false, none)) ∧
    (∀ services,
      effectiveNodes parse isEmptyE subsetF subsetSize defE newNode services ≠ [] →
      resolverUpdate parse isEmptyE subsetF subsetSize defE newNode services =
        (true, some (effectiveNodes parse isEmptyE subsetF subsetSize defE
          newNode services))) ∧
    (resolverUpdate parse isEmptyE subsetF subsetSize defE newNode [] =
      (false, none)) ∧
    (∀ services, filteredInstances parse isEmptyE services = [] →
      resolverUpdate parse isEmptyE subsetF subsetSize defE newNode services =
        (false, none)) := by
  have ha : ∀ services,
      effectiveNodes parse isEmptyE subsetF subsetSize defE newNode services = [] →
      resolverUpdate parse isEmptyE subsetF subsetSize defE newNode services =
        (false, none) := by
    intro services h
    simp [resolverUpdate, h]
  have hd : ∀ services, filteredInstances parse isEmptyE services = [] →
      resolverUpdate parse isEmptyE subsetF subsetSize defE newNode services =
        (false, none) := by
    intro services h
    apply ha
    simp [effectiveNodes, postSubset, h]
    intro hsz
    rw [hsub]
  refine ⟨ha, ?_, hd [] rfl, hd⟩
  intro services h
  simp [resolverUpdate, h]

theorem resolver_update_guard_witness :
    (∀ _sz : Int, ([] : List Unit) = []) ∧
    resolverUpdate parseC9 isEmptyC9 (fun l _ => l) 0 0 newNodeC9 [] =
      (false, none) :=
  ⟨fun _ => rfl,
   (resolver_update_guard parseC9 isEmptyC9 (fun l _ => l) 0 0 newNodeC9
     (fun _ => rfl)).2.2.1⟩

/-- Claim C9, amended: in resolver.update the Subset reduction is applied to
the filtered instance list iff subsetSize is NONZERO (the implemented guard
is subsetSize != 0, not the claimed subsetSize > 0); with subsetSize = 0 the
full filtered instance list is passed on to node construction unchanged. -/
theorem resolver_subset_guard {ι ε ν : Type} (parse : ι → Option ε)
    (isEmptyE : ε → Bool) (subsetF : List ι → Int → List ι) (subsetSize : Int)
    (defE : ε) (newNode : ε → ι → ν) (services : List ι) :
    (subsetSize ≠ 0 →
      effectiveNodes parse isEmptyE subsetF subsetSize defE newNode services =
        (subsetF (filteredInstances parse isEmptyE services) subsetSize).map
          (fun ins => newNode ((parse ins).getD defE) ins)) ∧
    (subsetSize = 0 →
      effectiveNodes parse isEmptyE subsetF subsetSize defE newNode services =
        (filteredInstances parse isEmptyE services).map
          (fun ins => newNode ((parse ins).getD defE) ins)) := by
  constructor <;> intro h <;> simp [effectiveNodes, postSubset, h]

/-- Claim C9 counterexample: with subsetSize = -1 the code applies the
Subset reduction (its guard is subsetSize != 0) while the claimed guard
subsetSize > 0 would skip it; on a single parsed instance whose subset image
is empty, resolver.update therefore produces no node and suppresses the
Apply, where the claimed behaviour would pass the instance through. -/
theorem resolver_subset_guard_cex :
    effectiveNodes parseC9 isEmptyC9 subsetC9 (-1) 0 newNodeC9 [()] ≠
      effectiveNodesSpec parseC9 isEmptyC9 subsetC9 (-1) 0 newNodeC9 [()] ∧
    effectiveNodes parseC9 isEmptyC9 subsetC9 (-1) 0 newNodeC9 [()] = [] ∧
    effectiveNodesSpec parseC9 isEmptyC9 subsetC9 (-1) 0 newNodeC9 [()] = [1] ∧
    resolverUpdate parseC9 isEmptyC9 subsetC9 (-1) 0 newNodeC9 [()] =
      (false, none) := by
  refine ⟨?_, ?_, ?_, ?_⟩ <;> decide

theorem resolver_subset_guard_witness :
    ((-1 : Int) ≠ 0 ∧
      effectiveNodes parseC9 isEmptyC9 subsetC9 (-1) 0 newNodeC9 [()] =
        (subsetC9 (filteredInstances parseC9 isEmptyC9 [()]) (-1)).map
          (fun ins => newNodeC9 ((parseC9 ins).getD 0) ins)) ∧
    ((0 : Int) = 0 ∧
      effectiveNodes parseC9 isEmptyC9 subsetC9 0 0 newNodeC9 [()] =
        (filteredInstances parseC9 isEmptyC9 [()]).map
          (fun ins => newNodeC9 ((parseC9 ins).getD 0) ins)) :=
  ⟨⟨by decide, (resolver_subset_guard parseC9 isEmptyC9 subsetC9 (-1) 0
      newNodeC9 [()]).1 (by decide)⟩,
   ⟨rfl, (resolver_subset_guard parseC9 isEmptyC9 subsetC9 0 0
      newNodeC9 [()]).2 rfl⟩⟩

theorem equal_components {σ : Type} [LinearOrder σ] [Inhabited σ]
    (i t : ServiceInstance σ)
    (hlen : i.endpoints.length = t.endpoints.length) :
    (i.equal (some t)).2.1 =
      { i with endpoints := List.insertionSort (· ≤ ·) i.endpoints } ∧
    (i.equal (some t)).2.2 =
      some { t with endpoints := List.insertionSort (· ≤ ·) t.endpoints } := by
  constructor <;>
  · simp only [ServiceInstance.equal]
    rw [if_neg (not_ne_iff.2 hlen)]
    split
    · rfl
    · split
      · rfl
      · split
        · rfl
        · rfl

/-- Claim C10: for every pair of non-nil instances whose Endpoints lengths
match, Equal sorts both the receiver's and the argument's Endpoints slices
in place: after the call each is an ascending permutation (under the
byte-lexicographic string order, abstracted as the linear order on σ) of the
endpoints it held before; and the registered order is in general not
preserved, as the closing concrete conjunct shows. -/
theorem equal_sorts_endpoints {σ : Type} [LinearOrder σ] [Inhabited σ]
    (i t : ServiceInstance σ)
    (hlen : i.endpoints.length = t.endpoints.length) :
    ((i.equal (some t)).2.1.endpoints.Sorted (· ≤ ·) ∧
      (i.equal (some t)).2.1.endpoints.Perm i.endpoints) ∧
    (∃ t2, (i.equal (some t)).2.2 = some t2 ∧
      t2.endpoints.Sorted (· ≤ ·) ∧ t2.endpoints.Perm t.endpoints) ∧
    ((instC10.equal (some instC10b)).2.1.endpoints = [0, 1] ∧
      instC10.endpoints = [1, 0]) := by
  obtain ⟨h1, h2⟩ := equal_components i t hlen
  refine ⟨⟨?_, ?_⟩, ⟨_, h2, ?_, ?_⟩, ?_, rfl⟩
  · rw [h1]
    exact List.sorted_insertionSort _ _
  · rw [h1]
    exact List.perm_insertionSort _ _
  · exact List.sorted_insertionSort _ _
  · exact List.perm_insertionSort _ _
  · decide

theorem equal_sorts_endpoints_witness :
    instC10.endpoints.length = instC10b.endpoints.length ∧
    (instC10.equal (some instC10b)).2.1.endpoints.Sorted (· ≤ ·) :=
  ⟨by decide, (equal_sorts_endpoints instC10 instC10b (by decide)).1.1⟩

end Kratos
